import Mathlib

/-!
Shallow embedding of the PulseBot moderation subsystem, translated from the
TypeScript sources:

* `src/utils/duration.ts`        — duration parsing/formatting (DurationCodec)
* `src/services/moderationService.ts` (unnamed part_006) — case ledger
* `src/models/moderationCounter.ts`   — per-guild case counter
* `src/utils/reportHandler.ts`   (unnamed part_004) — user report submission
* `src/utils/reportLogger.ts`    — report log message construction
* `src/utils/reportVerdictHandler.ts` + `src/events/interactionCreate.ts`
                                  — take-report / verdict handlers
* `src/utils/ticketHandler.ts`   (unnamed part_000) — ticket open logic
* `src/commands/moderation/mute.ts`, `ban.ts` — sanction commands and
                                  their scheduled reversal timers

JavaScript strings are modelled as `String` / `List Char`; machine numbers as
`Nat` (all relevant quantities are non-negative integers; `Number` overflow is
discussed where it matters); `null`/`undefined` as `Option`; the Mongo
persistence layer as explicit state records threaded through the functions.
-/

namespace PulseBot

/-! ## Character / string helpers (embedding of the JS string operations used) -/

/-- Model of the character class `\s` as used by `String.prototype.trim` and
the `[\s,]+` split regex (core ASCII whitespace set). -/
def isWsChar (c : Char) : Bool :=
  c.toNat = 32 || c.toNat = 9 || c.toNat = 10 || c.toNat = 13 ||
  c.toNat = 11 || c.toNat = 12

/-- Model of `\d` (ASCII decimal digit). -/
def isDigitChar (c : Char) : Bool :=
  decide (48 ≤ c.toNat) && decide (c.toNat ≤ 57)

/-- Model of `String.prototype.trim` on a character list. -/
def jsTrim (cs : List Char) : List Char :=
  ((cs.dropWhile isWsChar).reverse.dropWhile isWsChar).reverse

/-- Model of `String.prototype.toLowerCase` on one (ASCII) character. -/
def jsToLowerChar (c : Char) : Char :=
  if 65 ≤ c.toNat ∧ c.toNat ≤ 90 then Char.ofNat (c.toNat + 32) else c

/-- Model of `String.prototype.toLowerCase` on a character list. -/
def jsToLower (cs : List Char) : List Char :=
  cs.map jsToLowerChar

/-- `Number(digits)` on an all-digit token: decimal value of the digit list. -/
def digitsToNat (ds : List Char) : Nat :=
  ds.foldl (fun a c => 10 * a + (c.toNat - 48)) 0

/-! ## DurationCodec — `src/utils/duration.ts` -/

/-- `UNIT_MAP` from `duration.ts`: multiplier of each accepted unit letter. -/
def UNIT_MAP (c : Char) : Option Nat :=
  if c = 's' then some 1000
  else if c = 'm' then some 60000
  else if c = 'h' then some 3600000
  else if c = 'd' then some 86400000
  else if c = 'w' then some 604800000
  else none

/-- `MAX_DURATION_MS = 30 * 24 * 60 * 60 * 1000` (30 days). -/
def MAX_DURATION_MS : Nat := 30 * 24 * 60 * 60 * 1000

/-- `parseDurationInput` from `duration.ts`.

The source lowercases the trimmed input and matches it against the regex
`^(\d+)(s|m|h|d|w)$/i`; a match is exactly: the last character is one of the
unit letters and the (non-empty) remainder is all digits.  `amount` is the
decimal value of the digit run; the result is `amount * multiplier` unless it
is `<= 0` or exceeds the 30-day cap.  (The JS `Number.isFinite` guard can only
fail for inputs whose value already far exceeds the cap, so it is subsumed by
the cap check in this `Nat` model.) -/
def parseDurationInput (raw : String) : Option Nat :=
  let input := jsToLower (jsTrim raw.toList)
  let ds := input.dropLast
  match input.getLast? with
  | none => none
  | some u =>
    if ds ≠ [] ∧ ds.all isDigitChar then
      match UNIT_MAP u with
      | none => none
      | some multiplier =>
        let durationMs := digitsToNat ds * multiplier
        if durationMs = 0 ∨ durationMs > MAX_DURATION_MS then none
        else some durationMs
    else none

/-- `formatDuration` from `duration.ts` (`Math.floor` divisions are `Nat`
division on these non-negative quantities). -/
def formatDuration (durationMs : Nat) : String :=
  let seconds := durationMs / 1000
  if seconds < 60 then toString seconds ++ "s"
  else
    let minutes := seconds / 60
    if minutes < 60 then toString minutes ++ "m"
    else
      let hours := minutes / 60
      if hours < 24 then toString hours ++ "h"
      else
        let days := hours / 24
        if days < 7 then toString days ++ "d"
        else toString (days / 7) ++ "w"

/-! ## Case ledger — `src/services/moderationService.ts` and the two models -/

inductive ModerationActionType
  | warn | mute | unmute | kick | ban | unban | note
deriving DecidableEq, Repr

/-- The `metadata` sub-document fields that the moderation flows write. -/
structure CaseMetadata where
  automated : Bool := false
  muteRoleId : Option String := none
  reportedBy : Option String := none
  reportType : Option String := none
deriving DecidableEq, Repr

/-- `CreateModerationCaseInput` from `src/types/Moderation.ts`. -/
structure CreateModerationCaseInput where
  guildId : String
  userId : String
  moderatorId : String
  type : ModerationActionType
  reason : String
  evidenceUrls : List String := []
  durationMs : Option Nat := none
  expiresAt : Option Nat := none
  metadata : CaseMetadata := {}
deriving DecidableEq, Repr

/-- A persisted `ModerationCase` document (`moderationCase.ts` schema):
the payload plus the optional `caseId` and the `createdAt` timestamp. -/
structure ModerationCase extends CreateModerationCaseInput where
  caseId : Option Nat := none
  createdAt : Nat
deriving DecidableEq, Repr

/-- The Mongo state used by the moderation service: the
`ModerationCounter` collection (one `lastCaseId` row per `guildId`,
`moderationCounter.ts`) and the `ModerationCase` collection in insertion
order. -/
structure ModerationDB where
  counters : List (String × Nat) := []
  cases : List ModerationCase := []
deriving DecidableEq, Repr

/-- Lookup of the counter row for a guild (`findOne`-style). -/
def getCounter (l : List (String × Nat)) (guildId : String) : Option Nat :=
  (l.find? (fun p => decide (p.1 = guildId))).map (·.2)

/-- Upsert write of a counter row (the store keyed by the unique `guildId`). -/
def setCounter : List (String × Nat) → String → Nat → List (String × Nat)
  | [], guildId, v => [(guildId, v)]
  | p :: rest, guildId, v =>
    if p.1 = guildId then (guildId, v) :: rest else p :: setCounter rest guildId v

/-- `getNextCaseId` from `moderationService.ts`:
`findOneAndUpdate({guildId}, {$inc: {lastCaseId: 1}}, {upsert, new})` — one
atomic read-increment-write on the counter row, creating it (from the schema
default `0`) when absent, and returning the updated `lastCaseId`.  (With
`new: true` and `upsert` the returned document is never null, so the
`?? 1` fallback in the source is unreachable.) -/
def getNextCaseId (db : ModerationDB) (guildId : String) : Nat × ModerationDB :=
  let prev := (getCounter db.counters guildId).getD 0
  let next := prev + 1
  (next, { db with counters := setCounter db.counters guildId next })

/-- `createModerationCase(payload, options)` from `moderationService.ts`:
`generateCaseId` defaults to `false`; when set, `getNextCaseId` is called
first and its (always positive, hence truthy) result embedded; the document
is persisted regardless.  `now` models the `timestamps` plugin's
`createdAt`. -/
def createModerationCase (db : ModerationDB) (payload : CreateModerationCaseInput)
    (generateCaseId : Bool) (now : Nat) : ModerationCase × ModerationDB :=
  let step : Option Nat × ModerationDB :=
    if generateCaseId then
      let r := getNextCaseId db payload.guildId
      (some r.1, r.2)
    else (none, db)
  let moderationCase : ModerationCase :=
    { payload with caseId := step.1, createdAt := now }
  (moderationCase, { step.2 with cases := step.2.cases ++ [moderationCase] })

/-- Repeated case-id allocation: the results of `n` successive
`getNextCaseId` calls for `guildId`, with the final state. -/
def allocSeq (db : ModerationDB) (guildId : String) : Nat → List Nat × ModerationDB
  | 0 => ([], db)
  | n + 1 =>
    let r := getNextCaseId db guildId
    let rest := allocSeq r.2 guildId n
    (r.1 :: rest.1, rest.2)

/-- Descending insertion by `createdAt` (used to model the Mongo
`sort({createdAt: -1})`). -/
def insertByCreatedAtDesc (c : ModerationCase) :
    List ModerationCase → List ModerationCase
  | [] => [c]
  | x :: xs =>
    if x.createdAt ≤ c.createdAt then c :: x :: xs
    else x :: insertByCreatedAtDesc c xs

/-- Sort newest-first by `createdAt` (model of `sort({createdAt: -1})`). -/
def sortByCreatedAtDesc (l : List ModerationCase) : List ModerationCase :=
  l.foldr insertByCreatedAtDesc []

/-- The Mongo filter document of `getUserCases`: always `guildId` and
`userId`, plus `type` when the option was given. -/
def casesFilter (guildId userId : String) (type : Option ModerationActionType)
    (c : ModerationCase) : Bool :=
  decide (c.guildId = guildId) && decide (c.userId = userId) &&
    (match type with
     | some t => decide (c.type = t)
     | none => true)

/-- `getUserCases` from `moderationService.ts`: filter by `guildId`,
`userId` and (when given) `type`; sort newest-first; apply `limit` only when
it is truthy (`if (options?.limit)` — a supplied `0` is falsy in JS and
applies no limit; in Mongo `limit(0)` would likewise mean "no limit"). -/
def getUserCases (db : ModerationDB) (guildId userId : String)
    (type : Option ModerationActionType) (limit : Option Nat) :
    List ModerationCase :=
  let sorted := sortByCreatedAtDesc (db.cases.filter (casesFilter guildId userId type))
  match limit with
  | some n => if n ≠ 0 then sorted.take n else sorted
  | none => sorted

/-! ## Evidence formatting — `formatEvidence`, defined identically in
`reportHandler.ts` (unnamed part_004), `mute.ts` and `ban.ts`:
`raw.split(/[\s,]+/).map(trim).filter(Boolean).slice(0, 5)`. -/

/-- Separator class of the split regex `[\s,]+`. -/
def isEvidenceSep (c : Char) : Bool := isWsChar c || c = ','

/-- Split on separator characters, keeping (possibly empty) pieces; the `+`
of the regex only merges adjacent separators, which after the
`filter(Boolean)` step below is indistinguishable from this per-character
split. -/
def splitSepAux : List Char → List Char → List (List Char)
  | [], acc => [acc.reverse]
  | c :: cs, acc =>
    if isEvidenceSep c then acc.reverse :: splitSepAux cs []
    else splitSepAux cs (c :: acc)

def splitSep (cs : List Char) : List (List Char) := splitSepAux cs []

/-- The non-empty evidence entries, trimmed, in input order (the pipeline of
`formatEvidence` before `slice(0, 5)`). -/
def evidenceTokens (s : String) : List String :=
  ((splitSep s.toList).map (fun t => String.mk (jsTrim t))).filter
    (fun t => !decide (t = ""))

/-- `formatEvidence(raw)`: `[]` on a falsy input (`undefined`, `null` or the
empty string), otherwise the first 5 non-empty entries. -/
def formatEvidence (raw : Option String) : List String :=
  match raw with
  | none => []
  | some s => if s = "" then [] else (evidenceTokens s).take 5

/-! ## Report submission — `processUserReport` (reportHandler.ts, unnamed
part_004) -/

/-- The slice of a guild member that the report flow inspects. -/
structure MemberInfo where
  isBot : Bool := false
deriving DecidableEq, Repr

/-- The guild environment of `processUserReport`: the community id and the
members that `guild.members.fetch` can resolve. -/
structure ReportGuild where
  guildId : String
  members : List (String × MemberInfo) := []
deriving DecidableEq, Repr

/-- `guild.members.fetch(id).catch(() => null)`. -/
def resolveMember (g : ReportGuild) (userId : String) : Option MemberInfo :=
  (g.members.find? (fun p => decide (p.1 = userId))).map (·.2)

/-- One attempt of the pattern `/<@!?(\d+)>/` anchored at the head of the
list: mention opener, optional `!`, a non-empty digit run, then `>`. -/
def tryMentionAt : List Char → Option (List Char)
  | '<' :: '@' :: rest =>
    let rest2 := match rest with
      | '!' :: r => r
      | r => r
    let ds := rest2.takeWhile isDigitChar
    (match rest2.dropWhile isDigitChar, ds with
     | '>' :: _, _ :: _ => some ds
     | _, _ => none)
  | _ => none

/-- Scan for the first match of `/<@!?(\d+)>/` (mention with optional `!`),
returning the captured digit run, as a JS regex search does: try the pattern
at each position, moving one character forward on failure. -/
def findMention : List Char → Option (List Char)
  | [] => none
  | c :: cs =>
    match tryMentionAt (c :: cs) with
    | some ds => some ds
    | none => findMention cs

/-- `extractUserId` from reportHandler.ts: a mention (`<@id>` / `<@!id>`)
anywhere in the input, else the trimmed input when it is all digits
(`/^\d+$/`), else `null`. -/
def extractUserId (input : String) : Option String :=
  match findMention input.toList with
  | some ds => some (String.mk ds)
  | none =>
    let t := jsTrim input.toList
    if t ≠ [] ∧ t.all isDigitChar then some (String.mk t) else none

/-- Result shape of `processUserReport`. -/
structure ReportResult where
  success : Bool
  message : String
  caseId : Option Nat := none
deriving DecidableEq, Repr

/-- `processUserReport(guild, reporter, userInput, reason, evidenceInput)`.
Checks in source order: extractable id, resolvable member, not a
self-report, not a bot; then formats evidence and calls
`createModerationCase` — with NO options object, so the service's
`generateCaseId` defaults to `false` and no case id is allocated (the
returned `caseId` is the created document's absent `caseId`).  The
`logUserReport` call afterwards only posts a log message (no ledger
write). -/
def processUserReport (g : ReportGuild) (db : ModerationDB)
    (reporterId : String) (userInput reason : String)
    (evidenceInput : Option String) (now : Nat) : ReportResult × ModerationDB :=
  match extractUserId userInput with
  | none =>
    ({ success := false,
       message := "No pude identificar al usuario." }, db)
  | some reportedUserId =>
    match resolveMember g reportedUserId with
    | none =>
      ({ success := false,
         message := "No pude encontrar a ese usuario en el servidor." }, db)
    | some reportedMember =>
      if reportedUserId = reporterId then
        ({ success := false,
           message := "No puedes reportarte a ti mismo." }, db)
      else if reportedMember.isBot then
        ({ success := false,
           message := "No puedes reportar a un bot." }, db)
      else
        let evidence := formatEvidence evidenceInput
        let r := createModerationCase db
          { guildId := g.guildId, userId := reportedUserId,
            moderatorId := reporterId, type := ModerationActionType.note,
            reason := "[REPORTE] " ++ reason,
            evidenceUrls := evidence,
            metadata := { reportedBy := some reporterId,
                          reportType := some "user_report" } }
          false now
        ({ success := true,
           message := "Reporte enviado correctamente.",
           caseId := r.1.caseId }, r.2)

/-! ## Sanction commands and scheduled reversals — mute.ts / ban.ts -/

inductive SanctionKind
  | mute | ban
deriving DecidableEq, Repr

/-- The key the spec assigns to a pending reversal:
`(communityId, subjectUserId, sanctionKind)`. -/
structure TimerKey where
  guildId : String
  userId : String
  kind : SanctionKind
deriving DecidableEq, Repr

/-- State touched by the mute/ban commands and their `setTimeout` reversal
callbacks: which subjects currently carry each sanction, the pending (not yet
fired) timers in scheduling order, the ledger, and the best-effort DM /
audit-log notifications that were attempted. -/
structure SanctionWorld where
  mutedUsers : List (String × String) := []
  bannedUsers : List (String × String) := []
  timers : List TimerKey := []
  db : ModerationDB := {}
  dmLog : List (String × ModerationActionType) := []
  auditLog : List (String × ModerationActionType) := []
deriving DecidableEq, Repr

/-- `mute.ts execute` (success path of the guards): rejects when the member
already has the mute role (reply only, no mutation) or when a supplied
duration fails to parse; otherwise adds the role, records a `mute` case
(no case id — no options are passed to `createModerationCase`), registers a
plain anonymous `setTimeout` when a duration was given (nothing is cancelled
or deduplicated), and sends the DM and moderation-log notifications. -/
def muteExecute (w : SanctionWorld) (g u moderatorId reason : String)
    (durationInput : Option String) (evidenceInput : Option String)
    (muteRoleId : String) (now : Nat) : SanctionWorld :=
  if (g, u) ∈ w.mutedUsers then w
  else
    let dur : Option Nat :=
      match durationInput with
      | some ds => parseDurationInput ds
      | none => none
    if durationInput.isSome ∧ dur = none then w
    else
      let r := createModerationCase w.db
        { guildId := g, userId := u, moderatorId := moderatorId,
          type := ModerationActionType.mute, reason := reason,
          evidenceUrls := formatEvidence evidenceInput,
          durationMs := dur, expiresAt := dur.map (now + ·),
          metadata := { muteRoleId := some muteRoleId } }
        false now
      let w1 := { w with mutedUsers := w.mutedUsers ++ [(g, u)], db := r.2 }
      let w2 :=
        match dur with
        | some _ => { w1 with timers := w1.timers ++ [TimerKey.mk g u SanctionKind.mute] }
        | none => w1
      { w2 with dmLog := w2.dmLog ++ [(u, ModerationActionType.mute)],
                auditLog := w2.auditLog ++ [(u, ModerationActionType.mute)] }

/-- `ban.ts execute` (success path of the guards): rejects bots and
hierarchy violations (reply only), parses the optional duration, records a
`ban` case, bans the member (a no-op when already banned), registers a plain
anonymous `setTimeout` when a duration was given (there is no
already-banned guard, no keyed timer map, and no cancellation), and attempts
the DM / moderation-log notifications. -/
def banExecute (w : SanctionWorld) (g u moderatorId reason : String)
    (targetIsBot hierarchyOk : Bool)
    (durationInput : Option String) (evidenceInput : Option String)
    (now : Nat) : SanctionWorld :=
  if targetIsBot then w
  else if !hierarchyOk then w
  else
    let dur : Option Nat :=
      match durationInput with
      | some ds => parseDurationInput ds
      | none => none
    if durationInput.isSome ∧ dur = none then w
    else
      let r := createModerationCase w.db
        { guildId := g, userId := u, moderatorId := moderatorId,
          type := ModerationActionType.ban, reason := reason,
          evidenceUrls := formatEvidence evidenceInput,
          durationMs := dur, expiresAt := dur.map (now + ·) }
        false now
      let w1 :=
        { w with db := r.2,
                 bannedUsers :=
                   if (g, u) ∈ w.bannedUsers then w.bannedUsers
                   else w.bannedUsers ++ [(g, u)] }
      let w2 :=
        match dur with
        | some _ => { w1 with timers := w1.timers ++ [TimerKey.mk g u SanctionKind.ban] }
        | none => w1
      { w2 with dmLog := w2.dmLog ++ [(u, ModerationActionType.ban)],
                auditLog := w2.auditLog ++ [(u, ModerationActionType.ban)] }

/-- A fired timer is no longer pending (bookkeeping of the model: one
`setTimeout` callback runs once). -/
def eraseTimer (l : List TimerKey) (k : TimerKey) : List TimerKey :=
  l.eraseP (fun x => decide (x = k))

/-- The `unmute` reversal case payload written by the mute timer callback
(`metadata: { muteRoleId, automated: true }`). -/
def unmuteCasePayload (g u botId muteRoleId : String) :
    CreateModerationCaseInput :=
  { guildId := g, userId := u, moderatorId := botId,
    type := ModerationActionType.unmute,
    reason := "Mute expired automatically.",
    metadata := { automated := true, muteRoleId := some muteRoleId } }

/-- The `unban` reversal case payload written by the ban timer callback
(`metadata: { automated: true }`). -/
def unbanCasePayload (g u botId : String) : CreateModerationCaseInput :=
  { guildId := g, userId := u, moderatorId := botId,
    type := ModerationActionType.unban,
    reason := "Ban expired automatically.",
    metadata := { automated := true } }

/-- The mute reversal `setTimeout` callback from mute.ts: refetch guild and
role (silently stop when gone), refetch the member and re-verify it still
carries the mute role (silently skip when not — this is the manual-lift
guard), then remove the role, record one automated `unmute` case, and
attempt the DM and audit-log notifications. -/
def fireMuteTimer (w : SanctionWorld) (g u botId muteRoleId : String)
    (guildOk roleOk : Bool) (now : Nat) : SanctionWorld :=
  let w0 := { w with timers := eraseTimer w.timers ⟨g, u, SanctionKind.mute⟩ }
  if !guildOk then w0
  else if !roleOk then w0
  else if (g, u) ∈ w0.mutedUsers then
    let w1 :=
      { w0 with mutedUsers := w0.mutedUsers.filter (fun p => !decide (p = (g, u))) }
    let r := createModerationCase w1.db (unmuteCasePayload g u botId muteRoleId)
      false now
    { w1 with db := r.2,
              dmLog := w1.dmLog ++ [(u, ModerationActionType.unmute)],
              auditLog := w1.auditLog ++ [(u, ModerationActionType.unmute)] }
  else w0

/-- The ban reversal `setTimeout` callback from ban.ts: refetch guild and
the ban list (silently stop when unavailable), re-verify the subject is
still banned (silently skip when not), then unban, record one automated
`unban` case, and attempt the DM and audit-log notifications. -/
def fireBanTimer (w : SanctionWorld) (g u botId : String)
    (guildOk bansFetchOk : Bool) (now : Nat) : SanctionWorld :=
  let w0 := { w with timers := eraseTimer w.timers ⟨g, u, SanctionKind.ban⟩ }
  if !guildOk then w0
  else if !bansFetchOk then w0
  else if (g, u) ∈ w0.bannedUsers then
    let w1 :=
      { w0 with bannedUsers := w0.bannedUsers.filter (fun p => !decide (p = (g, u))) }
    let r := createModerationCase w1.db (unbanCasePayload g u botId) false now
    { w1 with db := r.2,
              dmLog := w1.dmLog ++ [(u, ModerationActionType.unban)],
              auditLog := w1.auditLog ++ [(u, ModerationActionType.unban)] }
  else w0

/-! ## Report workflow messages — reportLogger.ts, reportVerdictHandler.ts
and the `take_report_` / `verdict_modal_` handlers of interactionCreate.ts.

The report's workflow state lives only in the rendered log message: its
embed fields and its button row. -/

structure EmbedField where
  name : String
  value : String
  inline : Bool := false
deriving DecidableEq, Repr

structure ReportEmbed where
  title : String
  description : String
  color : Nat
  footerText : String
  fields : List EmbedField := []
deriving DecidableEq, Repr

/-- The report log message: its embeds and whether the staff action button
row is still attached. -/
structure ReportMessage where
  embeds : List ReportEmbed := []
  hasComponents : Bool := false
deriving DecidableEq, Repr

/-- `<@id> (tag)` as rendered into the Reportante/Reportado fields. -/
def mentionValue (id tag : String) : String :=
  "<@" ++ id ++ "> (" ++ tag ++ ")"

/-- The embed+buttons message built by `logUserReport` (reportLogger.ts):
fields `Reportante`, `Reportado`, `Motivo del Reporte`, optional
`Evidencia`, `Timestamp`; three staff buttons attached. -/
def buildReportLogMessage (caseId : Nat)
    (reporterId reporterTag reportedId reportedTag reason : String)
    (evidenceUrls : List String) (ts : Nat) : ReportMessage :=
  let baseFields : List EmbedField :=
    [{ name := "Reportante", value := mentionValue reporterId reporterTag,
       inline := true },
     { name := "Reportado", value := mentionValue reportedId reportedTag,
       inline := true },
     { name := "Motivo del Reporte",
       value := if reason = "" then "No especificado" else reason }]
  let withEvidence :=
    if evidenceUrls = [] then baseFields
    else baseFields ++
      [{ name := "Evidencia",
         value := String.intercalate "\n" evidenceUrls }]
  { embeds :=
      [{ title := "🚨 Reporte de Usuario",
         description := "Se recibió un reporte sobre " ++ reportedTag,
         color := 15548997,
         footerText := "Caso #" ++ toString caseId ++ " · ID: " ++ reportedId,
         fields := withEvidence ++
           [{ name := "Timestamp", value := "<t:" ++ toString ts ++ ":F>",
              inline := true }] }],
    hasComponents := true }

/-- `updateReportEmbedTaken` (reportVerdictHandler.ts): when the message has
an embed, rebuild it (falling back to the defaults on empty fields), copy
every existing field and append an `Estado: Tomado por …` field; the edit
passes only `embeds`, so the button row is left as it is.  No state check,
no rejection, no ledger write. -/
def updateReportEmbedTaken (msg : ReportMessage) (modId modTag : String)
    (caseId : Nat) : ReportMessage :=
  match msg.embeds.head? with
  | none => msg
  | some e =>
    { msg with embeds :=
        [{ title := if e.title = "" then "🚨 Reporte de Usuario" else e.title,
           description := e.description,
           color := if e.color = 0 then 16711680 else e.color,
           footerText :=
             if e.footerText = "" then "Caso #" ++ toString caseId
             else e.footerText,
           fields := e.fields ++
             [{ name := "Estado",
                value := "✅ Tomado por <@" ++ modId ++ "> (" ++ modTag ++ ")",
                inline := true }] }] }

/-- `updateReportEmbedVerdict` (reportVerdictHandler.ts): rebuild the embed
in green, copy every existing field, append `Veredicto` and `Estado` fields,
and edit with `components: []` — the buttons are removed. -/
def updateReportEmbedVerdict (msg : ReportMessage) (modId modTag : String)
    (caseId : Nat) (verdict : String) : ReportMessage :=
  match msg.embeds.head? with
  | none => msg
  | some e =>
    { embeds :=
        [{ title := if e.title = "" then "🚨 Reporte de Usuario" else e.title,
           description := e.description,
           color := 65280,
           footerText :=
             if e.footerText = "" then "Caso #" ++ toString caseId
             else e.footerText,
           fields := e.fields ++
             [{ name := "Veredicto", value := verdict },
              { name := "Estado",
                value := "✅ Veredicto dado por <@" ++ modId ++ "> (" ++
                  modTag ++ ")",
                inline := true }] }],
      hasComponents := false }

/-- The `take_report_` button handler (interactionCreate.ts): staff check,
`deferUpdate`, then `updateReportEmbedTaken`.  Returns the edited message,
the (untouched) ledger and whether the take was processed; there is no
report-state check and no rejection path besides the staff gate. -/
def takeReportHandler (msg : ReportMessage) (db : ModerationDB)
    (isStaff : Bool) (modId modTag : String) (caseId : Nat) :
    ReportMessage × ModerationDB × Bool :=
  if !isStaff then (msg, db, false)
  else (updateReportEmbedTaken msg modId modTag caseId, db, true)

/-- One attempt of `/<@(\d+)>/` anchored at the head of the list. -/
def tryUserMentionAt : List Char → Option (List Char)
  | '<' :: '@' :: rest =>
    let ds := rest.takeWhile isDigitChar
    (match rest.dropWhile isDigitChar, ds with
     | '>' :: _, _ :: _ => some ds
     | _, _ => none)
  | _ => none

/-- Scan for the first match of `/<@(\d+)>/` (the verdict handler's
reporter/reported extraction from the rendered field values). -/
def findUserMention : List Char → Option (List Char)
  | [] => none
  | c :: cs =>
    match tryUserMentionAt (c :: cs) with
    | some ds => some ds
    | none => findUserMention cs

/-- Outcome of one `verdict_modal_` submission: the edited message, the
ledger (the handler performs no ledger call), the number of verdict DM
notifications attempted (`sendVerdictDMs` tries the reporter and the
reported), and whether the handler reached its success reply. -/
structure VerdictOutcome where
  message : ReportMessage
  db : ModerationDB
  dmAttempts : Nat
  success : Bool
deriving DecidableEq, Repr

/-- The `verdict_modal_` submission handler (interactionCreate.ts): staff
check; re-derive the reporter and reported ids by pattern-matching the
`Reportante`/`Reportado` embed fields of the message (`/<@(\d+)>/`); on
success `sendVerdictDMs` notifies both parties and
`updateReportEmbedVerdict` rewrites the embed and clears the buttons.
There is no report-state check of any kind: nothing inspects whether a
verdict was already given. -/
def verdictModalHandler (msg : ReportMessage) (db : ModerationDB)
    (isStaff : Bool) (modId modTag : String) (caseId : Nat)
    (verdict : String) : VerdictOutcome :=
  if !isStaff then ⟨msg, db, 0, false⟩
  else
    match msg.embeds.head? with
    | none => ⟨msg, db, 0, false⟩
    | some e =>
      match e.fields.find? (fun f => decide (f.name = "Reportante")),
            e.fields.find? (fun f => decide (f.name = "Reportado")) with
      | some rf, some df =>
        (match findUserMention rf.value.toList,
               findUserMention df.value.toList with
         | some _, some _ =>
           ⟨updateReportEmbedVerdict msg modId modTag caseId verdict, db, 2,
            true⟩
         | _, _ => ⟨msg, db, 0, false⟩)
      | _, _ => ⟨msg, db, 0, false⟩

/-! ## Ticket opening — createTicket / hasOpenTicket (ticketHandler.ts,
unnamed part_000) -/

structure TicketUser where
  username : String
  tag : String
deriving DecidableEq, Repr

/-- The slice of a guild text channel inspected by the ticket flow:
`permissionsFor(userId).has(ViewChannel)` is `userId ∈ canView`, and a
member-type permission overwrite allowing ViewChannel is
`userId ∈ memberViewOverwrites`. -/
structure TicketChannel where
  id : Nat
  name : String
  isTextChannel : Bool := true
  canView : List String := []
  memberViewOverwrites : List String := []
  topic : String := ""
deriving DecidableEq, Repr

inductive TicketCategory
  | general | support | other
deriving DecidableEq, Repr

def categoryLabel : TicketCategory → String
  | TicketCategory.general => "General"
  | TicketCategory.support => "Support"
  | TicketCategory.other => "Other"

/-- The guild environment of the ticket flow. -/
structure TicketGuild where
  guildId : String
  users : List (String × TicketUser) := []
  channels : List TicketChannel := []
  ticketCategoryId : Option String := none
  categoryIsValid : Bool := true
  botHasPerms : Bool := true
  staffRoleIds : List String := []
  nextChannelId : Nat := 0
deriving DecidableEq, Repr

/-- `guild.client.users.fetch(userId).catch(() => null)`. -/
def resolveUser (g : TicketGuild) (userId : String) : Option TicketUser :=
  (g.users.find? (fun p => decide (p.1 = userId))).map (·.2)

/-- `hay.includes(needle)` on strings. -/
def strHasSub (hay needle : String) : Bool :=
  hay.toList.tails.any (fun t => needle.toList.isPrefixOf t)

/-- `hasOpenTicket` (part_000): resolve the user, lowercase the username,
and return the first guild text channel whose name starts with `ticket-`,
which the user can view, and which either name-matches the username or
carries a member-type ViewChannel overwrite for the user. -/
def hasOpenTicket (g : TicketGuild) (userId : String) : Option TicketChannel :=
  match resolveUser g userId with
  | none => none
  | some user =>
    let usernameLower := String.mk (jsToLower user.username.toList)
    g.channels.find? (fun ch =>
      ch.isTextChannel &&
      "ticket-".toList.isPrefixOf ch.name.toList &&
      decide (userId ∈ ch.canView) &&
      (strHasSub ch.name usernameLower ||
       decide (ch.name = "ticket-" ++ usernameLower) ||
       decide (userId ∈ ch.memberViewOverwrites)))

/-- `createTicket` (part_000): when `hasOpenTicket` finds an existing ticket
the call is blocked and returns `null` (the channel is NOT returned);
otherwise, after the configuration, category, permission and user checks, a
fresh `ticket-<username>` text channel is created with a member ViewChannel
overwrite for the requester (name truncated to Discord's 100 characters). -/
def createTicket (g : TicketGuild) (userId : String) (category : TicketCategory) :
    Option TicketChannel × TicketGuild :=
  match hasOpenTicket g userId with
  | some _ => (none, g)
  | none =>
    match g.ticketCategoryId with
    | none => (none, g)
    | some _ =>
      if !g.categoryIsValid then (none, g)
      else if !g.botHasPerms then (none, g)
      else
        match resolveUser g userId with
        | none => (none, g)
        | some user =>
          let channelName :=
            String.mk (("ticket-".toList ++ jsToLower user.username.toList).take 100)
          let ch : TicketChannel :=
            { id := g.nextChannelId, name := channelName,
              isTextChannel := true,
              canView := [userId],
              memberViewOverwrites := [userId],
              topic := "Ticket for " ++ categoryLabel category ++
                " - Created by " ++ user.tag }
          (some ch,
           { g with channels := g.channels ++ [ch],
                    nextChannelId := g.nextChannelId + 1 })

end PulseBot

namespace PulseBot

/-! ## Theorems -/

theorem jsTrim_eq_self {cs : List Char} (h : ∀ c ∈ cs, isWsChar c = false) :
    jsTrim cs = cs := by
  have h₁ : cs.dropWhile isWsChar = cs := by
    cases cs with
    | nil => rfl
    | cons a l =>
      have : isWsChar a = false := h a (by simp)
      simp [List.dropWhile, this]
  have h₂ : cs.reverse.dropWhile isWsChar = cs.reverse := by
    cases hr : cs.reverse with
    | nil => rfl
    | cons a l =>
      have ha : a ∈ cs := by
        have : a ∈ cs.reverse := by rw [hr]; simp
        simpa using this
      have : isWsChar a = false := h a ha
      simp [List.dropWhile, this]
  simp [jsTrim, h₁, h₂]

theorem jsToLowerChar_digit {c : Char} (h : isDigitChar c = true) :
    jsToLowerChar c = c := by
  simp only [isDigitChar, Bool.and_eq_true, decide_eq_true_eq] at h
  simp only [jsToLowerChar]
  rw [if_neg]
  omega

theorem digit_not_ws {c : Char} (h : isDigitChar c = true) :
    isWsChar c = false := by
  simp only [isDigitChar, Bool.and_eq_true, decide_eq_true_eq] at h
  simp only [isWsChar, Bool.or_eq_false_iff, decide_eq_false_iff_not]
  omega

theorem map_eq_self_of {α : Type} (f : α → α) (l : List α)
    (h : ∀ x ∈ l, f x = x) : l.map f = l := by
  induction l with
  | nil => rfl
  | cons a l ih =>
    simp only [List.map_cons, h a (by simp)]
    rw [ih (fun x hx => h x (by simp [hx]))]

/-! ### C1 — case-id allocation -/

theorem getCounter_setCounter (l : List (String × Nat)) (g : String) (v : Nat) :
    getCounter (setCounter l g v) g = some v := by
  induction l with
  | nil => simp [setCounter, getCounter, List.find?]
  | cons p rest ih =>
    by_cases hp : p.1 = g
    · simp [setCounter, hp, getCounter, List.find?]
    · simp only [setCounter, if_neg hp]
      simpa [getCounter, List.find?, hp] using ih

theorem getNextCaseId_counter (db : ModerationDB) (g : String) :
    getCounter (getNextCaseId db g).2.counters g =
      some ((getCounter db.counters g).getD 0 + 1) := by
  simp [getNextCaseId, getCounter_setCounter]

theorem allocSeq_fst (g : String) :
    ∀ (n : Nat) (db : ModerationDB),
      (allocSeq db g n).1 =
        List.range' ((getCounter db.counters g).getD 0 + 1) n := by
  intro n
  induction n with
  | zero => intro db; rfl
  | succ n ih =>
    intro db
    have hctr := getNextCaseId_counter db g
    simp only [allocSeq, ih (getNextCaseId db g).2, hctr, Option.getD_some]
    rw [List.range'_succ]
    rfl

/-- C1: for every community, a run of `N ≥ 1` case-id allocations returns
exactly the integers `1, …, N` in order when the counter does not yet exist
(it is created lazily by the first upsert), each allocation is a single
atomic counter update, and from any ledger state the allocated sequence is
strictly increasing with no duplicates or gaps (it is the contiguous range
starting right after the current `lastCaseId`). -/
theorem getNextCaseId_sequence (g : String) (N : Nat) (_hN : 1 ≤ N)
    (db : ModerationDB) :
    getCounter (ModerationDB.counters {}) g = none ∧
    (allocSeq {} g N).1 = List.range' 1 N ∧
    (allocSeq db g N).1 =
      List.range' ((getCounter db.counters g).getD 0 + 1) N ∧
    List.Chain' (· < ·) (allocSeq db g N).1 ∧
    (allocSeq db g N).1.Nodup := by
  refine ⟨rfl, ?_, allocSeq_fst g N db, ?_, ?_⟩
  · simpa using allocSeq_fst g N {}
  · rw [allocSeq_fst g N db]
    exact (List.pairwise_lt_range' _ N).chain'
  · rw [allocSeq_fst g N db]
    exact List.nodup_range' _ N

theorem getNextCaseId_sequence_witness :
    1 ≤ 3 ∧ (allocSeq {} "community" 3).1 = [1, 2, 3] :=
  ⟨by decide,
   (getNextCaseId_sequence "community" 3 (by decide) {}).2.1⟩

/-! ### C8 — DurationCodec -/

theorem UNIT_MAP_cases {u : Char} {m : Nat} (h : UNIT_MAP u = some m) :
    (u = 's' ∧ m = 1000) ∨ (u = 'm' ∧ m = 60000) ∨ (u = 'h' ∧ m = 3600000) ∨
    (u = 'd' ∧ m = 86400000) ∨ (u = 'w' ∧ m = 604800000) := by
  simp only [UNIT_MAP] at h
  split_ifs at h with h1 h2 h3 h4 h5 <;> simp_all

theorem parseDurationInput_token (ds : List Char) (u : Char) (m : Nat)
    (hne : ds ≠ []) (hds : ds.all isDigitChar = true) (hu : UNIT_MAP u = some m) :
    parseDurationInput (String.mk (ds ++ [u])) =
      (if digitsToNat ds * m = 0 ∨ digitsToNat ds * m > MAX_DURATION_MS then none
       else some (digitsToNat ds * m)) := by
  have hdig : ∀ c ∈ ds, isDigitChar c = true := List.all_eq_true.1 hds
  have hulc : jsToLowerChar u = u ∧ isWsChar u = false := by
    rcases UNIT_MAP_cases hu with ⟨h, _⟩ | ⟨h, _⟩ | ⟨h, _⟩ | ⟨h, _⟩ | ⟨h, _⟩ <;>
      subst h <;> exact ⟨by decide, by decide⟩
  have hws : ∀ c ∈ ds ++ [u], isWsChar c = false := by
    intro c hc
    rcases List.mem_append.1 hc with h | h
    · exact digit_not_ws (hdig c h)
    · simp only [List.mem_singleton] at h; subst h; exact hulc.2
  have hlc : ∀ c ∈ ds ++ [u], jsToLowerChar c = c := by
    intro c hc
    rcases List.mem_append.1 hc with h | h
    · exact jsToLowerChar_digit (hdig c h)
    · simp only [List.mem_singleton] at h; subst h; exact hulc.1
  have hlist : (String.mk (ds ++ [u])).toList = ds ++ [u] := rfl
  simp only [parseDurationInput, hlist, jsTrim_eq_self hws, jsToLower,
    map_eq_self_of _ _ hlc, List.dropLast_concat, List.getLast?_concat, hne,
    hds, ne_eq, not_false_iff, true_and, if_true, hu]

/-- C8: `parseDurationInput` accepts exactly `<positive integer><unit>`
tokens (unit one of `s m h d w`) whose total does not exceed the 30-day cap —
on any all-digit run followed by a unit letter it returns the product unless
that is zero or over the cap, any accepted value is positive and capped, and
the spec's concrete examples hold; `formatDuration` renders the largest whole
unit, so `90000 ↦ "1m"` and `3600000 ↦ "1h"`. -/
theorem durationCodec_spec :
    parseDurationInput "30m" = some 1800000 ∧
    parseDurationInput "1d" = some 86400000 ∧
    parseDurationInput "31d" = none ∧
    parseDurationInput "0m" = none ∧
    parseDurationInput "5x" = none ∧
    formatDuration 90000 = "1m" ∧
    formatDuration 3600000 = "1h" ∧
    (∀ (ds : List Char) (u : Char) (m : Nat),
      ds ≠ [] → ds.all isDigitChar = true → UNIT_MAP u = some m →
      parseDurationInput (String.mk (ds ++ [u])) =
        (if digitsToNat ds * m = 0 ∨ digitsToNat ds * m > MAX_DURATION_MS
         then none else some (digitsToNat ds * m))) ∧
    (∀ (s : String) (v : Nat),
      parseDurationInput s = some v → 0 < v ∧ v ≤ MAX_DURATION_MS) := by
  refine ⟨by decide, by decide, by decide, by decide, by decide,
    by decide, by decide, parseDurationInput_token, ?_⟩
  intro s v h
  simp only [parseDurationInput] at h
  split at h
  · exact absurd h (by simp)
  · split_ifs at h with hcond
    · split at h
      · exact absurd h (by simp)
      · split_ifs at h with hv
        all_goals
          first
            | exact Option.noConfusion h
            | (replace h := Option.some.inj h
               push_neg at hv
               omega)

theorem mem_insertByCreatedAtDesc {x c : ModerationCase}
    {l : List ModerationCase} :
    x ∈ insertByCreatedAtDesc c l ↔ x = c ∨ x ∈ l := by
  induction l with
  | nil => simp [insertByCreatedAtDesc]
  | cons a l ih =>
    by_cases hac : a.createdAt ≤ c.createdAt
    · simp [insertByCreatedAtDesc, hac]
    · simp only [insertByCreatedAtDesc, if_neg hac, List.mem_cons, ih]
      tauto

theorem mem_sortByCreatedAtDesc {x : ModerationCase} {l : List ModerationCase} :
    x ∈ sortByCreatedAtDesc l ↔ x ∈ l := by
  induction l with
  | nil => simp [sortByCreatedAtDesc]
  | cons a l ih =>
    simp only [sortByCreatedAtDesc, List.foldr_cons, List.mem_cons]
    rw [show List.foldr insertByCreatedAtDesc [] l = sortByCreatedAtDesc l from rfl]
      at *
    rw [mem_insertByCreatedAtDesc, ih]

theorem pairwise_insertByCreatedAtDesc {c : ModerationCase}
    {l : List ModerationCase}
    (h : List.Pairwise (fun a b => b.createdAt ≤ a.createdAt) l) :
    List.Pairwise (fun a b => b.createdAt ≤ a.createdAt)
      (insertByCreatedAtDesc c l) := by
  induction l with
  | nil => simp [insertByCreatedAtDesc]
  | cons x xs ih =>
    rw [List.pairwise_cons] at h
    by_cases hxc : x.createdAt ≤ c.createdAt
    · rw [insertByCreatedAtDesc, if_pos hxc, List.pairwise_cons]
      refine ⟨?_, List.pairwise_cons.2 h⟩
      intro y hy
      rcases List.mem_cons.1 hy with rfl | hy
      · exact hxc
      · exact le_trans (h.1 y hy) hxc
    · rw [insertByCreatedAtDesc, if_neg hxc, List.pairwise_cons]
      refine ⟨?_, ih h.2⟩
      intro y hy
      rcases mem_insertByCreatedAtDesc.1 hy with rfl | hy
      · exact Nat.le_of_not_le hxc
      · exact h.1 y hy

theorem pairwise_sortByCreatedAtDesc (l : List ModerationCase) :
    List.Pairwise (fun a b => b.createdAt ≤ a.createdAt)
      (sortByCreatedAtDesc l) := by
  induction l with
  | nil => simp [sortByCreatedAtDesc]
  | cons a l ih => exact pairwise_insertByCreatedAtDesc ih

/-! ### C9 — getUserCases -/

theorem mem_getUserCases {db : ModerationDB} {g u : String}
    {t : Option ModerationActionType} {lim : Option Nat} {c : ModerationCase}
    (h : c ∈ getUserCases db g u t lim) :
    c ∈ db.cases ∧ c.guildId = g ∧ c.userId = u ∧
      (∀ ty, t = some ty → c.type = ty) := by
  have hson :
      c ∈ sortByCreatedAtDesc (db.cases.filter (casesFilter g u t)) := by
    simp only [getUserCases] at h
    split at h
    · split_ifs at h with hn
      · exact List.mem_of_mem_take h
      · exact h
    · exact h
  have hf := mem_sortByCreatedAtDesc.1 hson
  have hmem := List.mem_of_mem_filter hf
  have hp := List.of_mem_filter hf
  simp only [casesFilter, Bool.and_eq_true, decide_eq_true_eq] at hp
  refine ⟨hmem, hp.1.1, hp.1.2, ?_⟩
  intro ty hty
  subst hty
  simpa using hp.2

/-- C9 (amended): `getUserCases` with a type filter returns only cases of
that type for the given community and subject, newest-first by `createdAt`,
and when a positive limit is supplied the result length never exceeds it.
(A supplied limit of `0` is falsy in the source — `if (options?.limit)` — and
applies no limit; see the counterexample.) -/
theorem getUserCases_spec (db : ModerationDB) (g u : String)
    (t : ModerationActionType) (n : Nat) (hn : 0 < n) :
    (getUserCases db g u (some t) (some n)).length ≤ n ∧
    List.Pairwise (fun a b => b.createdAt ≤ a.createdAt)
      (getUserCases db g u (some t) (some n)) ∧
    ∀ c ∈ getUserCases db g u (some t) (some n),
      c.guildId = g ∧ c.userId = u ∧ c.type = t := by
  have hne : n ≠ 0 := Nat.pos_iff_ne_zero.1 hn
  refine ⟨?_, ?_, ?_⟩
  · simp only [getUserCases, if_pos hne]
    rw [List.length_take]
    exact min_le_left _ _
  · simp only [getUserCases, if_pos hne]
    exact (pairwise_sortByCreatedAtDesc _).sublist (List.take_sublist _ _)
  · intro c hc
    have h := mem_getUserCases hc
    exact ⟨h.2.1, h.2.2.1, h.2.2.2 t rfl⟩

theorem getUserCases_spec_witness :
    0 < 2 ∧
    (getUserCases { counters := [], cases := [] } "g" "u"
      (some ModerationActionType.note) (some 2)).length ≤ 2 :=
  ⟨by decide,
   (getUserCases_spec { counters := [], cases := [] } "g" "u"
      ModerationActionType.note 2 (by decide)).1⟩

theorem getUserCases_limit_zero_counterexample :
    ¬ ((getUserCases
        { counters := [],
          cases := [{ guildId := "g", userId := "u", moderatorId := "m",
                      type := ModerationActionType.note, reason := "r",
                      createdAt := 0 }] }
        "g" "u" none (some 0)).length ≤ 0) := by
  decide

/-! ### C10 — evidence cap -/

/-- C10: evidence input is never rejected: `formatEvidence` is total, its
result is the `slice(0, 5)` truncation (first five entries, input order) of
the trimmed non-empty tokens, every entry is non-empty, and the length is
always at most 5 — hence every case payload built with it carries at most 5
evidence URLs. -/
theorem formatEvidence_cap (raw : Option String) :
    (formatEvidence raw).length ≤ 5 ∧
    (formatEvidence raw).all (fun e => !decide (e = "")) = true ∧
    formatEvidence raw =
      (match raw with
       | none => []
       | some s => if s = "" then [] else (evidenceTokens s).take 5) := by
  refine ⟨?_, ?_, rfl⟩
  · rcases raw with _ | s
    · simp [formatEvidence]
    · by_cases hs : s = ""
      · simp [formatEvidence, hs]
      · simp only [formatEvidence, if_neg hs]
        rw [List.length_take]
        exact min_le_left _ _
  · rw [List.all_eq_true]
    intro e he
    rcases raw with _ | s
    · simp [formatEvidence] at he
    · by_cases hs : s = ""
      · simp [formatEvidence, hs] at he
      · simp only [formatEvidence, if_neg hs] at he
        have hm := List.mem_of_mem_take he
        have := List.of_mem_filter hm
        simpa using this

theorem durationCodec_spec_witness :
    parseDurationInput (String.mk (['2'] ++ ['h'])) = some 7200000 ∧
    0 < 7200000 ∧ 7200000 ≤ MAX_DURATION_MS := by
  have h := durationCodec_spec
  have h1 := h.2.2.2.2.2.2.2.1 ['2'] 'h' 3600000 (by decide) (by decide)
    (by decide)
  have h2 : parseDurationInput (String.mk (['2'] ++ ['h'])) = some 7200000 := by
    rw [h1]; decide
  exact ⟨h2, h.2.2.2.2.2.2.2.2 (String.mk (['2'] ++ ['h'])) 7200000 h2⟩

/-! ### C7 — report rejections -/

/-- C7: `processUserReport` rejects the submission — `success = false` and
the persistence state untouched (no case record, no counter change) — when
the reported identity cannot be resolved as a member, when it equals the
reporter, or when it is a bot account (an unextractable identity is likewise
rejected; the hypothesis is vacuous then). -/
theorem processUserReport_rejections (g : ReportGuild) (db : ModerationDB)
    (reporterId userInput reason : String) (ev : Option String) (now : Nat)
    (h : ∀ rid, extractUserId userInput = some rid →
      resolveMember g rid = none ∨ rid = reporterId ∨
        (∃ m, resolveMember g rid = some m ∧ m.isBot = true)) :
    (processUserReport g db reporterId userInput reason ev now).1.success = false ∧
    (processUserReport g db reporterId userInput reason ev now).2 = db := by
  simp only [processUserReport]
  split
  · exact ⟨rfl, rfl⟩
  · rename_i rid hex
    have hr := h rid hex
    split
    · exact ⟨rfl, rfl⟩
    · rename_i m hm
      rcases hr with hn | hself | ⟨m', hm', hb⟩
      · rw [hm] at hn; exact Option.noConfusion hn
      · rw [if_pos hself]; exact ⟨rfl, rfl⟩
      · by_cases hself : rid = reporterId
        · rw [if_pos hself]; exact ⟨rfl, rfl⟩
        · rw [if_neg hself]
          rw [hm] at hm'
          have : m = m' := Option.some.inj hm'
          subst this
          rw [if_pos hb]
          exact ⟨rfl, rfl⟩

theorem processUserReport_rejections_witness :
    (processUserReport { guildId := "100", members := [("300", { isBot := false })] }
        { counters := [], cases := [] } "300" "300" "r" none 0).1.success = false ∧
    (processUserReport { guildId := "100", members := [("300", { isBot := false })] }
        { counters := [], cases := [] } "300" "300" "r" none 0).2 =
      { counters := [], cases := [] } := by
  refine processUserReport_rejections _ _ _ _ _ _ _ ?_
  intro rid hr
  have hev : extractUserId "300" = some "300" := by decide
  rw [hev] at hr
  have := Option.some.inj hr
  subst this
  exact Or.inr (Or.inl rfl)

/-! ### C4 — report case numbering -/

/-- C4 (code behaviour at a valid report): `processUserReport` succeeds but
calls `createModerationCase` without the options object, so the service's
`generateCaseId` defaults to `false`: the persisted `note` case carries no
`caseId` and the per-community counter is never touched — contradicting the
claimed `assignCaseId = true` allocation (and the service's own doc comment
that reports are numbered). -/
theorem processUserReport_no_caseId :
    (processUserReport { guildId := "100", members := [("200", { isBot := false })] }
        { counters := [], cases := [] } "300" "200" "spam" none 0).1.success = true ∧
    (processUserReport { guildId := "100", members := [("200", { isBot := false })] }
        { counters := [], cases := [] } "300" "200" "spam" none 0).1.caseId = none ∧
    ((processUserReport { guildId := "100", members := [("200", { isBot := false })] }
        { counters := [], cases := [] } "300" "200" "spam" none 0).2.cases.map
      (fun c => c.caseId)) = [none] ∧
    ((processUserReport { guildId := "100", members := [("200", { isBot := false })] }
        { counters := [], cases := [] } "300" "200" "spam" none 0).2.cases.map
      (fun c => c.type)) = [ModerationActionType.note] ∧
    (processUserReport { guildId := "100", members := [("200", { isBot := false })] }
        { counters := [], cases := [] } "300" "200" "spam" none 0).2.counters = [] := by
  decide

/-! ### C2 — pending reversal timers per key -/

/-- C2 counterexample: two temporary bans of the same subject in the same
community (there is no already-banned guard and no timer map) leave TWO
pending reversal timers for the key `("g", "u", ban)` — the second schedule
does not cancel the first, refuting the at-most-one-pending-timer-per-key
invariant. -/
theorem reversalTimer_dedup_counterexample :
    (banExecute (banExecute {} "g" "u" "mod" "r" false true (some "7d") none 0)
        "g" "u" "mod" "r" false true (some "7d") none 1).timers =
      [TimerKey.mk "g" "u" SanctionKind.ban, TimerKey.mk "g" "u" SanctionKind.ban] ∧
    ¬ ((banExecute (banExecute {} "g" "u" "mod" "r" false true (some "7d") none 0)
        "g" "u" "mod" "r" false true (some "7d") none 1).timers.countP
          (fun k => decide (k = TimerKey.mk "g" "u" SanctionKind.ban)) ≤ 1) := by
  decide

/-- C2 (amended): scheduling a reversal appends a fresh anonymous timer and
cancels nothing — every previously pending timer for the same key stays
pending — so several timers per key can coexist; the only protection is the
fire-time re-verification, which makes two firings of the same key add at
most one reversal case. -/
theorem reversalTimer_no_dedup (w : SanctionWorld)
    (g u moderatorId reason botId : String) (ds : String) (d : Nat)
    (ev : Option String) (now : Nat)
    (hd : parseDurationInput ds = some d) :
    (banExecute w g u moderatorId reason false true (some ds) ev now).timers =
      w.timers ++ [TimerKey.mk g u SanctionKind.ban] ∧
    (fireBanTimer (fireBanTimer w g u botId true true now) g u botId true true
        now).db.cases.length ≤ w.db.cases.length + 1 := by
  constructor
  · simp only [banExecute, Bool.not_true, if_false, hd, createModerationCase,
      Option.isSome_some, if_true]
    split_ifs <;> simp_all
  · by_cases hb : (g, u) ∈ w.bannedUsers
    all_goals
      simp only [fireBanTimer, eraseTimer, createModerationCase, Bool.not_true,
        if_false, hb, if_true, List.mem_filter]
      split_ifs <;> simp_all [List.length_append]

theorem reversalTimer_no_dedup_witness :
    (banExecute {} "g2" "u2" "m2" "r2" false true (some "1h") none 5).timers =
      [] ++ [TimerKey.mk "g2" "u2" SanctionKind.ban] :=
  (reversalTimer_no_dedup {} "g2" "u2" "m2" "r2" "b2" "1h" 3600000 none 5
    (by decide)).1

/-! ### C3 — reversal firing behaviour -/

/-- C3: when a reversal timer fires it first re-verifies that the subject
still carries the sanction: if already lifted manually (or the guild/role
is gone) it skips silently — no lift, no ledger case, no notifications;
otherwise it lifts the sanction and records exactly one ledger case of type
`unmute`/`unban` with `metadata.automated = true`, followed by the
best-effort DM and audit-log notifications.  Stated for both the mute and
the ban callback. -/
theorem reversalFire_spec (w : SanctionWorld) (g u botId muteRoleId : String)
    (now : Nat) :
    ((g, u) ∉ w.mutedUsers →
      fireMuteTimer w g u botId muteRoleId true true now =
        { w with timers := eraseTimer w.timers ⟨g, u, SanctionKind.mute⟩ }) ∧
    ((g, u) ∈ w.mutedUsers →
      (fireMuteTimer w g u botId muteRoleId true true now).db.cases =
        w.db.cases ++
          [{ unmuteCasePayload g u botId muteRoleId with
              caseId := none, createdAt := now }] ∧
      (unmuteCasePayload g u botId muteRoleId).type = ModerationActionType.unmute ∧
      (unmuteCasePayload g u botId muteRoleId).metadata.automated = true ∧
      (g, u) ∉ (fireMuteTimer w g u botId muteRoleId true true now).mutedUsers ∧
      (fireMuteTimer w g u botId muteRoleId true true now).dmLog =
        w.dmLog ++ [(u, ModerationActionType.unmute)] ∧
      (fireMuteTimer w g u botId muteRoleId true true now).auditLog =
        w.auditLog ++ [(u, ModerationActionType.unmute)]) ∧
    ((g, u) ∉ w.bannedUsers →
      fireBanTimer w g u botId true true now =
        { w with timers := eraseTimer w.timers ⟨g, u, SanctionKind.ban⟩ }) ∧
    ((g, u) ∈ w.bannedUsers →
      (fireBanTimer w g u botId true true now).db.cases =
        w.db.cases ++
          [{ unbanCasePayload g u botId with caseId := none, createdAt := now }] ∧
      (unbanCasePayload g u botId).type = ModerationActionType.unban ∧
      (unbanCasePayload g u botId).metadata.automated = true ∧
      (g, u) ∉ (fireBanTimer w g u botId true true now).bannedUsers ∧
      (fireBanTimer w g u botId true true now).dmLog =
        w.dmLog ++ [(u, ModerationActionType.unban)] ∧
      (fireBanTimer w g u botId true true now).auditLog =
        w.auditLog ++ [(u, ModerationActionType.unban)]) := by
  refine ⟨?_, ?_, ?_, ?_⟩
  · intro hm
    simp only [fireMuteTimer, Bool.not_true, if_false, hm, if_neg]
    simp [hm]
  · intro hm
    simp only [fireMuteTimer, Bool.not_true, createModerationCase, hm, if_true]
    refine ⟨by simp, rfl, rfl, ?_, by simp, by simp⟩
    simp [List.mem_filter]
  · intro hb
    simp only [fireBanTimer, Bool.not_true, if_false, hb, if_neg]
    simp [hb]
  · intro hb
    simp only [fireBanTimer, Bool.not_true, createModerationCase, hb, if_true]
    refine ⟨by simp, rfl, rfl, ?_, by simp, by simp⟩
    simp [List.mem_filter]

/-! ### C5 — report terminal state -/

/-- Inversion of a successful verdict submission: the handler only reports
success on the full path, where it rewrote the embed and attempted both
notifications. -/
theorem verdictModalHandler_success_eq (msg : ReportMessage)
    (db : ModerationDB) (modId modTag : String) (caseId : Nat) (v : String)
    (h : (verdictModalHandler msg db true modId modTag caseId v).success = true) :
    verdictModalHandler msg db true modId modTag caseId v =
      ⟨updateReportEmbedVerdict msg modId modTag caseId v, db, 2, true⟩ := by
  simp only [verdictModalHandler, Bool.not_true] at h ⊢
  rw [if_neg (by simp)] at h ⊢
  split at h
  · exact absurd h (by simp)
  · split at h
    · split at h
      · rfl
      · exact absurd h (by simp)
    · exact absurd h (by simp)

/-- C5 counterexample: after a report log message receives a verdict
(reaching the terminal rendered state: `Veredicto` field added, buttons
removed), a second `verdict_modal_` submission is NOT rejected: it succeeds
again and attempts two more notifications, and a `take_report_` interaction
is likewise processed — there is no `StateError` path in the code. -/
theorem verdictTerminal_counterexample :
    (verdictModalHandler
      (buildReportLogMessage 1 "1001" "Rep" "1002" "Den" "razon" [] 0)
      { counters := [], cases := [] } true "2001" "Mod" 1 "culpable").success
        = true ∧
    (verdictModalHandler
      (buildReportLogMessage 1 "1001" "Rep" "1002" "Den" "razon" [] 0)
      { counters := [], cases := [] } true "2001" "Mod" 1
      "culpable").message.hasComponents = false ∧
    (verdictModalHandler
      (verdictModalHandler
        (buildReportLogMessage 1 "1001" "Rep" "1002" "Den" "razon" [] 0)
        { counters := [], cases := [] } true "2001" "Mod" 1 "culpable").message
      { counters := [], cases := [] } true "2001" "Mod" 1
      "repetido").success = true ∧
    (verdictModalHandler
      (verdictModalHandler
        (buildReportLogMessage 1 "1001" "Rep" "1002" "Den" "razon" [] 0)
        { counters := [], cases := [] } true "2001" "Mod" 1 "culpable").message
      { counters := [], cases := [] } true "2001" "Mod" 1
      "repetido").dmAttempts = 2 ∧
    (takeReportHandler
      (verdictModalHandler
        (buildReportLogMessage 1 "1001" "Rep" "1002" "Den" "razon" [] 0)
        { counters := [], cases := [] } true "2001" "Mod" 1 "culpable").message
      { counters := [], cases := [] } true "2001" "Mod" 1).2.2 = true := by
  decide

theorem option_some_or {α : Type} (a : α) (b : Option α) :
    (some a).or b = some a := rfl

/-- C5 (amended): for a report message whose embed carries the locatable
`Reportante`/`Reportado` mention fields (as every `logUserReport` message
does), the first verdict succeeds and removes the message's button row (the
only terminal-state protection, UI-level) and writes no ledger case; but a
further verdict submission on the resulting message is NOT rejected with a
state error — it is fully reprocessed, attempting two more notifications —
and a further take is likewise processed, also without ledger writes. -/
theorem verdictTerminal_behaviour (msg : ReportMessage) (db : ModerationDB)
    (modId modTag : String) (caseId : Nat) (v v2 : String)
    (e : ReportEmbed) (rf df : EmbedField)
    (hhead : msg.embeds.head? = some e)
    (hrf : e.fields.find? (fun f => decide (f.name = "Reportante")) = some rf)
    (hdf : e.fields.find? (fun f => decide (f.name = "Reportado")) = some df)
    (hm1 : (findUserMention rf.value.toList).isSome = true)
    (hm2 : (findUserMention df.value.toList).isSome = true) :
    (verdictModalHandler msg db true modId modTag caseId v).success = true ∧
    (verdictModalHandler msg db true modId modTag caseId
        v).message.hasComponents = false ∧
    (verdictModalHandler msg db true modId modTag caseId v).db = db ∧
    (verdictModalHandler
      (verdictModalHandler msg db true modId modTag caseId v).message db true
      modId modTag caseId v2).success = true ∧
    (verdictModalHandler
      (verdictModalHandler msg db true modId modTag caseId v).message db true
      modId modTag caseId v2).dmAttempts = 2 ∧
    (verdictModalHandler
      (verdictModalHandler msg db true modId modTag caseId v).message db true
      modId modTag caseId v2).db = db ∧
    (takeReportHandler
      (verdictModalHandler msg db true modId modTag caseId v).message db true
      modId modTag caseId).2.2 = true ∧
    (takeReportHandler
      (verdictModalHandler msg db true modId modTag caseId v).message db true
      modId modTag caseId).2.1 = db := by
  obtain ⟨ds1, hds1⟩ := Option.isSome_iff_exists.1 hm1
  obtain ⟨ds2, hds2⟩ := Option.isSome_iff_exists.1 hm2
  have hfirst : verdictModalHandler msg db true modId modTag caseId v =
      ⟨updateReportEmbedVerdict msg modId modTag caseId v, db, 2, true⟩ := by
    simp only [verdictModalHandler, Bool.not_true]
    rw [if_neg (by simp)]
    simp only [hhead, hrf, hdf, hds1, hds2]
  rw [hfirst]
  simp only [updateReportEmbedVerdict, hhead]
  refine ⟨?_, ?_, ?_, ?_, ?_, ?_, ?_, ?_⟩ <;>
    first
      | trivial
      | (simp only [verdictModalHandler, Bool.not_true]
         rw [if_neg (by simp)]
         simp only [List.head?_cons, List.find?_append, hrf, hdf,
           option_some_or, hds1, hds2])

theorem verdictTerminal_behaviour_witness :
    (verdictModalHandler
      (verdictModalHandler
        { embeds :=
            [{ title := "t", description := "d", color := 1, footerText := "f",
               fields :=
                 [{ name := "Reportante", value := "<@3001> (R)", inline := true },
                  { name := "Reportado", value := "<@3002> (D)", inline := true }] }],
          hasComponents := true }
        { counters := [], cases := [] } true "m" "M" 1 "v1").message
      { counters := [], cases := [] } true "m" "M" 1 "v2").success = true :=
  (verdictTerminal_behaviour
    { embeds :=
        [{ title := "t", description := "d", color := 1, footerText := "f",
           fields :=
             [{ name := "Reportante", value := "<@3001> (R)", inline := true },
              { name := "Reportado", value := "<@3002> (D)", inline := true }] }],
      hasComponents := true }
    { counters := [], cases := [] } "m" "M" 1 "v1" "v2"
    { title := "t", description := "d", color := 1, footerText := "f",
      fields :=
        [{ name := "Reportante", value := "<@3001> (R)", inline := true },
         { name := "Reportado", value := "<@3002> (D)", inline := true }] }
    { name := "Reportante", value := "<@3001> (R)", inline := true }
    { name := "Reportado", value := "<@3002> (D)", inline := true }
    (by decide) (by decide) (by decide) (by decide) (by decide)).2.2.2.1

/-! ### C6 — ticket open idempotence -/

/-- C6 counterexample: with a resolvable requester, valid configuration and
no prior ticket, the first `createTicket` returns the fresh channel; the
second call — without any intervening close — is blocked by `hasOpenTicket`
and returns `null`, NOT the same ticket reference, refuting the
same-reference-both-times claim (no second channel is created, though). -/
theorem ticketOpen_counterexample :
    ((createTicket
        { guildId := "1", users := [("20", { username := "bob", tag := "bob#2" })],
          channels := [], ticketCategoryId := some "cat",
          categoryIsValid := true, botHasPerms := true, staffRoleIds := [],
          nextChannelId := 0 }
        "20" TicketCategory.general).1.isSome = true) ∧
    (createTicket
      (createTicket
        { guildId := "1", users := [("20", { username := "bob", tag := "bob#2" })],
          channels := [], ticketCategoryId := some "cat",
          categoryIsValid := true, botHasPerms := true, staffRoleIds := [],
          nextChannelId := 0 }
        "20" TicketCategory.general).2
      "20" TicketCategory.general).1 = none ∧
    ¬ ((createTicket
        (createTicket
          { guildId := "1", users := [("20", { username := "bob", tag := "bob#2" })],
            channels := [], ticketCategoryId := some "cat",
            categoryIsValid := true, botHasPerms := true, staffRoleIds := [],
            nextChannelId := 0 }
          "20" TicketCategory.general).2
        "20" TicketCategory.general).1 =
      (createTicket
        { guildId := "1", users := [("20", { username := "bob", tag := "bob#2" })],
          channels := [], ticketCategoryId := some "cat",
          categoryIsValid := true, botHasPerms := true, staffRoleIds := [],
          nextChannelId := 0 }
        "20" TicketCategory.general).1) := by
  decide

theorem isPrefixOf_append_take (pre rest : List Char) (n : Nat)
    (h : pre.length ≤ n) : pre.isPrefixOf ((pre ++ rest).take n) = true := by
  rw [List.take_append_eq_append_take, List.take_of_length_le h,
    List.isPrefixOf_iff_prefix]
  exact List.prefix_append pre _

theorem createTicket_blocked_of_open (g : TicketGuild) (uid : String)
    (cat : TicketCategory) (c : TicketChannel)
    (h : hasOpenTicket g uid = some c) : createTicket g uid cat = (none, g) := by
  simp only [createTicket, h]

theorem hasOpenTicket_isSome (g : TicketGuild) (uid : String)
    (user : TicketUser) (hu : resolveUser g uid = some user)
    (ch : TicketChannel) (hmem : ch ∈ g.channels)
    (htext : ch.isTextChannel = true)
    (hpre : "ticket-".toList.isPrefixOf ch.name.toList = true)
    (hview : uid ∈ ch.canView) (hover : uid ∈ ch.memberViewOverwrites) :
    (hasOpenTicket g uid).isSome = true := by
  simp only [hasOpenTicket, hu, List.find?_isSome]
  refine ⟨ch, hmem, ?_⟩
  simp only [Bool.and_eq_true, Bool.or_eq_true, decide_eq_true_eq]
  exact ⟨⟨⟨htext, hpre⟩, hview⟩, Or.inr hover⟩

/-- C6 (amended): a second `open` for the same requester without an
intervening close never creates a second ticket channel — but it returns a
blocked `null` result, not the existing ticket reference: after any
successful `createTicket` the guild has exactly the one new channel, and a
repeated call leaves the guild unchanged and returns `none`. -/
theorem ticketOpen_blocked (g : TicketGuild) (userId : String)
    (cat : TicketCategory) (ch : TicketChannel) (g2 : TicketGuild)
    (h : createTicket g userId cat = (some ch, g2)) :
    g2.channels = g.channels ++ [ch] ∧
    createTicket g2 userId cat = (none, g2) := by
  -- Invert the successful creation.
  simp only [createTicket] at h
  rcases hopen : hasOpenTicket g userId with _ | ch0
  swap
  · rw [hopen] at h; simp at h
  rw [hopen] at h
  rcases hcat : g.ticketCategoryId with _ | cid
  · rw [hcat] at h; simp at h
  rw [hcat] at h
  rcases hvalid : g.categoryIsValid with _ | _
  · simp [hvalid] at h
  rcases hperm : g.botHasPerms with _ | _
  · simp [hvalid, hperm] at h
  simp only [hvalid, hperm, Bool.not_true, Bool.false_eq_true, if_false] at h
  rcases huser : resolveUser g userId with _ | user
  · rw [huser] at h; simp at h
  rw [huser] at h
  rw [Prod.mk.injEq] at h
  obtain ⟨hch, hg2⟩ := h
  have hch : _ = ch := Option.some.inj hch
  subst hg2
  constructor
  · rw [hch]
  · rw [hch]
    have htext : ch.isTextChannel = true := by rw [← hch]
    have hpre2 : "ticket-".toList.isPrefixOf ch.name.toList = true := by
      rw [← hch]
      exact isPrefixOf_append_take _ _ 100 (by decide)
    have hview : userId ∈ ch.canView := by rw [← hch]; simp
    have hover : userId ∈ ch.memberViewOverwrites := by rw [← hch]; simp
    have hu2 : resolveUser
        { g with channels := g.channels ++ [ch],
                 nextChannelId := g.nextChannelId + 1 } userId = some user :=
      huser
    have hsome := hasOpenTicket_isSome _ userId user hu2 ch (by simp) htext
      hpre2 hview hover
    obtain ⟨c, hc⟩ := Option.isSome_iff_exists.1 hsome
    exact createTicket_blocked_of_open _ userId cat c hc

theorem ticketOpen_blocked_witness :
    (createTicket
      { guildId := "1", users := [("10", { username := "al", tag := "al#1" })],
        channels :=
          [{ id := 0, name := "ticket-al", isTextChannel := true,
             canView := ["10"], memberViewOverwrites := ["10"],
             topic := "Ticket for General - Created by al#1" }],
        ticketCategoryId := some "cat", categoryIsValid := true,
        botHasPerms := true, staffRoleIds := [], nextChannelId := 1 }
      "10" TicketCategory.general) =
    (none,
      { guildId := "1", users := [("10", { username := "al", tag := "al#1" })],
        channels :=
          [{ id := 0, name := "ticket-al", isTextChannel := true,
             canView := ["10"], memberViewOverwrites := ["10"],
             topic := "Ticket for General - Created by al#1" }],
        ticketCategoryId := some "cat", categoryIsValid := true,
        botHasPerms := true, staffRoleIds := [], nextChannelId := 1 }) :=
  (ticketOpen_blocked
    { guildId := "1", users := [("10", { username := "al", tag := "al#1" })],
      channels := [], ticketCategoryId := some "cat", categoryIsValid := true,
      botHasPerms := true, staffRoleIds := [], nextChannelId := 0 }
    "10" TicketCategory.general
    { id := 0, name := "ticket-al", isTextChannel := true,
      canView := ["10"], memberViewOverwrites := ["10"],
      topic := "Ticket for General - Created by al#1" }
    { guildId := "1", users := [("10", { username := "al", tag := "al#1" })],
      channels :=
        [{ id := 0, name := "ticket-al", isTextChannel := true,
           canView := ["10"], memberViewOverwrites := ["10"],
           topic := "Ticket for General - Created by al#1" }],
      ticketCategoryId := some "cat", categoryIsValid := true,
      botHasPerms := true, staffRoleIds := [], nextChannelId := 1 }
    (by decide)).2

theorem reversalFire_spec_witness :
    ("g", "u") ∈ [("g", "u")] ∧
    (fireMuteTimer
        { mutedUsers := [("g", "u")], bannedUsers := [], timers := [],
          db := { counters := [], cases := [] }, dmLog := [], auditLog := [] }
        "g" "u" "bot" "role" true true 9).db.cases =
      [] ++ [{ unmuteCasePayload "g" "u" "bot" "role" with
                caseId := none, createdAt := 9 }] := by
  refine ⟨by decide, ?_⟩
  exact ((reversalFire_spec
    { mutedUsers := [("g", "u")], bannedUsers := [], timers := [],
      db := { counters := [], cases := [] }, dmLog := [], auditLog := [] }
    "g" "u" "bot" "role" 9).2.1 (by decide)).1

end PulseBot
